import Mathlib

/-!
# Verification of the bolt-supabase security and cart logic

A shallow embedding of the security-relevant SQL functions
(`supabase/migrations/20250705012222_little_heart.sql`), the schema
uniqueness constraints (`supabase/migrations/20250704144124_aged_manor.sql`),
the authentication service and cart store (TypeScript), and the API service
tree assembly (`src/services/api.ts`), together with theorems checking the
natural-language specification against them.

Conventions:
* timestamps are integers (milliseconds since the epoch); SQL `interval`
  constants become integer constants;
* SQL `NULL` and JS `undefined`/absent fields become `Option`;
* JS numbers are modelled as exact rationals `ℚ`;
* table states are lists of row records, a whole database is a record of
  such lists; SQL `UPDATE ... WHERE` becomes `List.map` with a conditional,
  `DELETE ... WHERE` becomes `List.filter`, `SELECT ... INTO` becomes
  `List.find?`;
* randomness (`random()`) is abstracted as an oracle of rationals in `[0,1)`.
-/

namespace BoltSupabase

/-- Timestamps in milliseconds since the epoch. -/
abbrev Time := Int

/-- `interval '30 minutes'` (`record_login_attempt`), in milliseconds; agrees
with `AuthService.LOCKOUT_DURATION = 30 * 60 * 1000`. -/
def lockoutDuration : Time := 30 * 60 * 1000

/-- `interval '30 days'` (`cleanup_expired_tokens`), in milliseconds. -/
def thirtyDays : Time := 30 * 24 * 60 * 60 * 1000

/-- A row of the `users` table, restricted to the columns the embedded
functions read or write (`email` is `UNIQUE NOT NULL`;
`failed_login_attempts integer DEFAULT 0` and `locked_until timestamptz`
are nullable). -/
structure UserRow where
  email : String
  failed_login_attempts : Option Int
  locked_until : Option Time
  deriving Repr, DecidableEq

/-- A row of the `login_attempts` table. -/
structure LoginAttemptRow where
  email : String
  ip_address : Option String
  user_agent : Option String
  success : Bool
  failure_reason : Option String
  created_at : Time
  deriving Repr, DecidableEq

/-- A row of the `csrf_tokens` table (`token text NOT NULL UNIQUE`,
`user_id uuid` nullable, `expires_at timestamptz NOT NULL`). -/
structure CsrfRow where
  token : String
  user_id : Option String
  expires_at : Time
  deriving Repr, DecidableEq

/-- A row of `password_reset_tokens` or `user_sessions`, restricted to the
columns `cleanup_expired_tokens` reads. -/
structure TokenRow where
  token : String
  user_id : String
  expires_at : Time
  deriving Repr, DecidableEq

/-- A row of the `shopping_carts` table.  `user_id`, `product_id` and
`variant_id` are all nullable foreign keys in the schema. -/
structure CartRow where
  user_id : Option String
  product_id : Option String
  variant_id : Option String
  quantity : Int
  deriving Repr, DecidableEq

/-- A row of the `ratings` table (`product_id` and `user_id` are nullable
foreign keys). -/
structure RatingRow where
  product_id : Option String
  user_id : Option String
  rating : Int
  deriving Repr, DecidableEq

/-- The database state: one list of rows per table the embedded functions
touch.  `shopping_carts` and `ratings` are carried along to state frame
conditions. -/
structure DB where
  users : List UserRow
  login_attempts : List LoginAttemptRow
  password_reset_tokens : List TokenRow
  user_sessions : List TokenRow
  csrf_tokens : List CsrfRow
  shopping_carts : List CartRow
  ratings : List RatingRow
  deriving Repr, DecidableEq

/-! ## SQL function `record_login_attempt`

```sql
INSERT INTO login_attempts (email, ip_address, user_agent, success, failure_reason)
VALUES (user_email, attempt_ip, attempt_user_agent, is_success, reason);
IF NOT is_success THEN
  UPDATE users SET failed_login_attempts = COALESCE(failed_login_attempts, 0) + 1
  WHERE email = user_email;
  UPDATE users SET locked_until = now() + interval '30 minutes'
  WHERE email = user_email AND failed_login_attempts >= 5;
ELSE
  UPDATE users SET failed_login_attempts = 0, locked_until = NULL
  WHERE email = user_email;
END IF;
```
The second `UPDATE` reads the counter already incremented by the first; a
`NULL` counter fails the SQL comparison `failed_login_attempts >= 5`. -/

/-- Row transformer of the first failure `UPDATE`:
`SET failed_login_attempts = COALESCE(failed_login_attempts, 0) + 1
WHERE email = user_email`. -/
def failIncrement (user_email : String) (u : UserRow) : UserRow :=
  if u.email = user_email then
    { u with failed_login_attempts := some (u.failed_login_attempts.getD 0 + 1) }
  else u

/-- Row transformer of the second failure `UPDATE`:
`SET locked_until = now() + interval '30 minutes'
WHERE email = user_email AND failed_login_attempts >= 5` (a `NULL` counter
fails the comparison). -/
def failLock (user_email : String) (now : Time) (u : UserRow) : UserRow :=
  if decide (u.email = user_email) && (match u.failed_login_attempts with
      | some k => decide (5 ≤ k)
      | none => false) then
    { u with locked_until := some (now + lockoutDuration) }
  else u

/-- Row transformer of the success `UPDATE`:
`SET failed_login_attempts = 0, locked_until = NULL
WHERE email = user_email`. -/
def successReset (user_email : String) (u : UserRow) : UserRow :=
  if u.email = user_email then
    { u with failed_login_attempts := some 0, locked_until := none }
  else u

def record_login_attempt (db : DB) (now : Time) (user_email : String)
    (attempt_ip attempt_user_agent : Option String)
    (is_success : Bool) (reason : Option String) : DB :=
  let db1 : DB := { db with login_attempts := db.login_attempts ++
    [⟨user_email, attempt_ip, attempt_user_agent, is_success, reason, now⟩] }
  if is_success then
    { db1 with users := db1.users.map (successReset user_email) }
  else
    { db1 with users :=
        (db1.users.map (failIncrement user_email)).map (failLock user_email now) }

/-! ## SQL function `is_user_locked`

```sql
SELECT * INTO user_record FROM users WHERE email = user_email;
IF NOT FOUND THEN RETURN false; END IF;
IF user_record.locked_until IS NOT NULL AND user_record.locked_until > now() THEN
  RETURN true;
END IF;
IF user_record.locked_until IS NOT NULL AND user_record.locked_until <= now() THEN
  UPDATE users SET locked_until = NULL, failed_login_attempts = 0
  WHERE email = user_email;
END IF;
RETURN false;
```
-/

/-- Row transformer of the lazy unlock `UPDATE`:
`SET locked_until = NULL, failed_login_attempts = 0
WHERE email = user_email`. -/
def lockClear (user_email : String) (u : UserRow) : UserRow :=
  if u.email = user_email then
    { u with locked_until := none, failed_login_attempts := some 0 }
  else u

def is_user_locked (db : DB) (now : Time) (user_email : String) : Bool × DB :=
  match db.users.find? (fun u => decide (u.email = user_email)) with
  | none => (false, db)
  | some u =>
    match u.locked_until with
    | some t =>
      if now < t then (true, db)
      else (false, { db with users := db.users.map (lockClear user_email) })
    | none => (false, db)

/-! ## SQL function `cleanup_expired_tokens`

Deletes `password_reset_tokens`, `user_sessions` and `csrf_tokens` rows with
`expires_at < now()`, and `login_attempts` rows with
`created_at < now() - interval '30 days'`. -/

def cleanup_expired_tokens (db : DB) (now : Time) : DB :=
  { db with
    password_reset_tokens :=
      db.password_reset_tokens.filter fun r => !decide (r.expires_at < now)
    user_sessions :=
      db.user_sessions.filter fun r => !decide (r.expires_at < now)
    csrf_tokens :=
      db.csrf_tokens.filter fun r => !decide (r.expires_at < now)
    login_attempts :=
      db.login_attempts.filter fun r => !decide (r.created_at < now - thirtyDays) }

/-! ## SQL function `generate_secure_token`

```sql
chars text := 'ABCDEFGHIJKLMNOPQRSTUVWXYZabcdefghijklmnopqrstuvwxyz0123456789';
FOR i IN 1..length LOOP
  result := result || substr(chars, floor(random() * length(chars) + 1)::integer, 1);
END LOOP;
```
`random()` is abstracted as an oracle `Nat → ℚ` giving the value drawn on
each loop iteration, assumed to lie in `[0,1)`. -/

/-- The 62-character alphabet of `generate_secure_token`. -/
def tokenChars : List Char :=
  "ABCDEFGHIJKLMNOPQRSTUVWXYZabcdefghijklmnopqrstuvwxyz0123456789".toList

/-- SQL `substr(s, start, 1)` for a 1-based `start ≥ 1`: the one-character
substring at position `start`, empty when `start` is past the end. -/
def sqlSubstr1 (s : List Char) (start : Int) : List Char :=
  (s.drop (start - 1).toNat).take 1

/-- The characters produced by the first `n` loop iterations of
`generate_secure_token`, in order (iteration `i` draws `oracle i`). -/
def generate_secure_token (oracle : Nat → ℚ) : Nat → List Char
  | 0 => []
  | n + 1 =>
    generate_secure_token oracle n ++
      sqlSubstr1 tokenChars ⌊oracle (n + 1) * (tokenChars.length : ℚ) + 1⌋

/-! ## SQL function `check_password_strength` and the zod password rule -/

/-- Matches the regex character class `[A-Z]`. -/
def isUpperAZ (c : Char) : Bool := decide ('A' ≤ c) && decide (c ≤ 'Z')

/-- Matches the regex character class `[a-z]`. -/
def isLowerAZ (c : Char) : Bool := decide ('a' ≤ c) && decide (c ≤ 'z')

/-- Matches the regex character class `[0-9]`. -/
def isDigit09 (c : Char) : Bool := decide ('0' ≤ c) && decide (c ≤ '9')

/-- SQL `check_password_strength`: a chain of early `RETURN false` checks —
length at least 8, then one match each of `[A-Z]`, `[a-z]`, `[0-9]`,
`[^A-Za-z0-9]` — and a final `RETURN true`. -/
def check_password_strength (password : List Char) : Bool :=
  if password.length < 8 then false
  else if !password.any isUpperAZ then false
  else if !password.any isLowerAZ then false
  else if !password.any isDigit09 then false
  else if !password.any (fun c => !(isUpperAZ c || isLowerAZ c || isDigit09 c)) then false
  else true

/-- The JS `String.length` of the string with these codepoints: zod's
`.min(8)` compares UTF-16 code units, so an astral codepoint (`≥ 0x10000`,
a surrogate pair in JS) counts as two. -/
def utf16Length (password : List Char) : Nat :=
  (password.map fun c => if c.toNat < 65536 then 1 else 2).sum

/-- The zod password rule shared by `signUpSchema` and `newPasswordSchema`:
`.min(8)` on the JS string length (UTF-16 code units) conjoined with the
four regex tests `[A-Z]`, `[a-z]`, `[0-9]`, `[^A-Za-z0-9]`.  The regex
tests are stated on codepoints: the three positive classes are ASCII, and a
string has a code unit outside `A-Za-z0-9` exactly when it has a codepoint
outside it (a lone surrogate half of an astral codepoint is itself outside
the class). -/
def zodPasswordRule (password : List Char) : Bool :=
  decide (8 ≤ utf16Length password) &&
    password.any isUpperAZ &&
    password.any isLowerAZ &&
    password.any isDigit09 &&
    password.any (fun c => !(isUpperAZ c || isLowerAZ c || isDigit09 c))

/-! ## `AuthService.validateCSRFToken`

```ts
const { data, error } = await supabase.from('csrf_tokens').select('*')
  .eq('token', token).gt('expires_at', new Date().toISOString()).single();
if (error || !data) return false;
if (userId && data.user_id !== userId) return false;
await supabase.from('csrf_tokens').delete().eq('token', token);
return true;
```
`.single()` succeeds exactly when the filtered result holds one row. -/

/-- JS truthiness of an optional string: `undefined`/`null` and the empty
string are falsy. -/
def jsTruthy : Option String → Bool
  | none => false
  | some s => !(s == "")

def validateCSRFToken (db : DB) (now : Time) (token : String)
    (userId : Option String) : Bool × DB :=
  match db.csrf_tokens.filter
      (fun r => decide (r.token = token) && decide (now < r.expires_at)) with
  | [r] =>
    if jsTruthy userId && !decide (r.user_id = userId) then (false, db)
    else
      (true, { db with csrf_tokens :=
        db.csrf_tokens.filter fun s => !decide (s.token = token) })
  | _ => (false, db)

/-! ## `ApiService.getCategories` tree assembly

```ts
const categoryMap = new Map();
const rootCategories: Category[] = [];
categories.forEach(cat => { categoryMap.set(cat.id, { ...cat, children: [] }); });
categories.forEach(cat => {
  const category = categoryMap.get(cat.id);
  if (cat.parent_id) {
    const parent = categoryMap.get(cat.parent_id);
    if (parent) { parent.children.push(category); }
  } else {
    rootCategories.push(category);
  }
});
return rootCategories;
```
The JS result is the graph of shared node objects; it is embedded as the
association list from category id to its `children` ids (in push order)
together with the root id list. -/

/-- A row of the `categories` table as fetched by `getCategories`. -/
structure CategoryRow where
  id : String
  parent_id : Option String
  name : String
  deriving Repr, DecidableEq

/-- One iteration of the second `forEach` of `getCategories`.  `keys` is the
key set `categoryMap` received in the first pass; the state is the children
map together with `rootCategories`. -/
def categoryStep (keys : List String)
    (st : List (String × List String) × List String) (cat : CategoryRow) :
    List (String × List String) × List String :=
  if jsTruthy cat.parent_id then
    match cat.parent_id with
    | some pid =>
      if keys.contains pid then
        (st.1.map fun e => if e.1 = pid then (e.1, e.2 ++ [cat.id]) else e, st.2)
      else st
    | none => st
  else (st.1, st.2 ++ [cat.id])

/-- The whole tree assembly: the first pass yields one map entry with empty
`children` per fetched row (later rows overwrite earlier ones with the same
id; fetched ids are distinct in the database), the second pass is the fold
of `categoryStep`. -/
def buildCategoryTree (cats : List CategoryRow) :
    List (String × List String) × List String :=
  cats.foldl (categoryStep (cats.map (·.id))) (cats.map (fun c => (c.id, [])), [])

/-- How many times a category id is placed in the assembled structure:
occurrences in the root list plus occurrences in all children lists. -/
def treeOccurrences (t : List (String × List String) × List String)
    (i : String) : Nat :=
  t.2.count i + (t.1.map fun e => e.2.count i).sum

/-! ## Schema uniqueness constraints

`shopping_carts` carries `UNIQUE(user_id, product_id, variant_id)` and
`ratings` carries `UNIQUE(product_id, user_id)`; all of these columns are
nullable.  A Postgres `UNIQUE` constraint compares rows with `NULL` distinct
from every value, `NULL` included. -/

/-- Column comparison as performed by a `UNIQUE` constraint: two values
collide only when both are non-`NULL` and equal. -/
def sqlUniqueEq (a b : Option String) : Bool :=
  match a, b with
  | some x, some y => decide (x = y)
  | _, _ => false

/-- Whether an existing `shopping_carts` row blocks the insert of `r` under
`UNIQUE(user_id, product_id, variant_id)`. -/
def cartConflict (r s : CartRow) : Bool :=
  sqlUniqueEq r.user_id s.user_id && sqlUniqueEq r.product_id s.product_id &&
    sqlUniqueEq r.variant_id s.variant_id

/-- Whether inserting `r` into `shopping_carts` passes the table's unique
constraint against the existing rows. -/
def cartInsertAllowed (rows : List CartRow) (r : CartRow) : Bool :=
  !rows.any (cartConflict r)

/-- Whether an existing `ratings` row blocks the insert of `r` under
`UNIQUE(product_id, user_id)`. -/
def ratingConflict (r s : RatingRow) : Bool :=
  sqlUniqueEq r.product_id s.product_id && sqlUniqueEq r.user_id s.user_id

/-- Whether inserting `r` into `ratings` passes the table's unique
constraint against the existing rows. -/
def ratingInsertAllowed (rows : List RatingRow) (r : RatingRow) : Bool :=
  !rows.any (ratingConflict r)

/-! ## `useCartStore`

The zustand cart store: `items`, `totalItems`, `totalPrice`, with
`calculateTotals` recomputing the totals by two `reduce` passes:
```ts
const totalItems = items.reduce((sum, item) => sum + item.quantity, 0);
const totalPrice = items.reduce((sum, item) => {
  const price = item.variant?.price || item.product?.base_price || 0;
  return sum + (price * item.quantity);
}, 0);
```
The success paths of `loadCart`, `updateItem` and `removeItem` update
`items` and call `calculateTotals`; `clearCart` resets all three fields
directly. -/

/-- The fields of a joined `product_variants` row the store reads. -/
structure VariantInfo where
  price : ℚ
  deriving Repr, DecidableEq

/-- The fields of a joined `products` row the store reads. -/
structure ProductInfo where
  base_price : ℚ
  deriving Repr, DecidableEq

/-- A `ShoppingCart` item as held by the cart store. -/
structure CartItem where
  id : String
  quantity : ℚ
  variant : Option VariantInfo
  product : Option ProductInfo
  deriving Repr, DecidableEq

/-- `item.variant?.price || item.product?.base_price || 0`: JS `||` returns
its first operand unless that operand is falsy (`undefined` from a missing
join, or the number `0`). -/
def jsItemPrice (it : CartItem) : ℚ :=
  match it.variant with
  | some v =>
    if v.price = 0 then
      match it.product with
      | some p => if p.base_price = 0 then 0 else p.base_price
      | none => 0
    else v.price
  | none =>
    match it.product with
    | some p => if p.base_price = 0 then 0 else p.base_price
    | none => 0

/-- The cart store state (`isLoading` omitted: it is reset by every
operation's `finally` block and carries no data). -/
structure CartStoreState where
  items : List CartItem
  totalItems : ℚ
  totalPrice : ℚ
  deriving Repr, DecidableEq

/-- `calculateTotals`. -/
def calculateTotals (st : CartStoreState) : CartStoreState :=
  { st with
    totalItems := st.items.foldl (fun sum it => sum + it.quantity) 0
    totalPrice := st.items.foldl (fun sum it => sum + jsItemPrice it * it.quantity) 0 }

/-- `loadCart` (success path): store the fetched rows, then recompute. -/
def loadCart (st : CartStoreState) (fetched : List CartItem) : CartStoreState :=
  calculateTotals { st with items := fetched }

/-- `updateItem` (success path): rewrite the matching item's quantity, then
recompute. -/
def updateItem (st : CartStoreState) (id : String) (quantity : ℚ) :
    CartStoreState :=
  calculateTotals { st with items := st.items.map fun it =>
    if it.id = id then { it with quantity := quantity } else it }

/-- `removeItem` (success path): drop the matching item, then recompute. -/
def removeItem (st : CartStoreState) (id : String) : CartStoreState :=
  calculateTotals { st with items := st.items.filter fun it => !decide (it.id = id) }

/-- `clearCart`: reset items and totals. -/
def clearCart (st : CartStoreState) : CartStoreState :=
  { st with items := [], totalItems := 0, totalPrice := 0 }

/-- The totals invariant, with the price of an item given by the JS
falsy-coalescing rule `variant?.price || product?.base_price || 0`. -/
def cartTotalsOk (st : CartStoreState) : Prop :=
  st.totalItems = (st.items.map (·.quantity)).sum ∧
    st.totalPrice = (st.items.map fun it => jsItemPrice it * it.quantity).sum

/-! ## Factorial -/

/-- Modelled from the spec: the standalone `factorial` function is absent
from the repository snapshot — only `src/factorial.test.js` references it
(`import { factorial } from './factorial'`), and the spec records that "the
only unit test present in the repository checks a standalone factorial
function".  Modelled as the standard factorial the test expects. -/
def factorial : Nat → Nat
  | 0 => 1
  | n + 1 => (n + 1) * factorial n

end BoltSupabase

namespace BoltSupabase

/-! # Theorems -/

/-! ## Helper lemmas -/

/-- A left fold accumulating `+ f it` is the accumulator plus the sum of the
mapped list. -/
theorem foldl_add_map_sum (f : CartItem → ℚ) (l : List CartItem) (a : ℚ) :
    l.foldl (fun sum it => sum + f it) a = a + (l.map f).sum := by
  induction l generalizing a with
  | nil => simp
  | cons it l ih =>
    rw [List.foldl_cons, ih, List.map_cons, List.sum_cons]
    ring

/-- `calculateTotals` establishes the totals invariant on any store state. -/
theorem calculateTotals_ok (st : CartStoreState) :
    cartTotalsOk (calculateTotals st) := by
  constructor
  · simpa using foldl_add_map_sum (fun it => it.quantity) st.items 0
  · simpa using foldl_add_map_sum (fun it => jsItemPrice it * it.quantity) st.items 0

/-- `sqlUniqueEq` holds exactly on equal non-`NULL` values. -/
theorem sqlUniqueEq_true_iff (a b : Option String) :
    sqlUniqueEq a b = true ↔ ∃ x, a = some x ∧ b = some x := by
  cases a <;> cases b <;> simp [sqlUniqueEq, eq_comm]

/-- `List.find?` on an email predicate commutes with mapping a row update
that preserves emails and fixes rows with other emails. -/
theorem find?_map_email (l : List UserRow) (e : String) (F : UserRow → UserRow)
    (hF : ∀ u, (F u).email = u.email) (hskip : ∀ u, u.email ≠ e → F u = u) :
    (l.map F).find? (fun u => decide (u.email = e)) =
      (l.find? (fun u => decide (u.email = e))).map F := by
  induction l with
  | nil => rfl
  | cons u l ih =>
    by_cases h : u.email = e
    · have h1 : (F u).email = e := by rw [hF]; exact h
      rw [List.map_cons, List.find?_cons_of_pos _ (by simpa using h1),
        List.find?_cons_of_pos _ (by simpa using h), Option.map_some']
    · have h0 : F u = u := hskip u h
      rw [List.map_cons, h0, List.find?_cons_of_neg _ (by simpa using h),
        List.find?_cons_of_neg _ (by simpa using h), ih]

/-- An optional string is JS-truthy exactly when it holds a non-empty
string. -/
theorem jsTruthy_iff (o : Option String) :
    jsTruthy o = true ↔ ∃ s, o = some s ∧ s ≠ "" := by
  cases o <;> simp [jsTruthy]

/-- `failIncrement` preserves emails. -/
theorem failIncrement_email (e : String) (u : UserRow) :
    (failIncrement e u).email = u.email := by
  unfold failIncrement; by_cases h : u.email = e <;> simp [h]

/-- `failIncrement` fixes rows with other emails. -/
theorem failIncrement_skip (e : String) (u : UserRow) (h : u.email ≠ e) :
    failIncrement e u = u := by
  simp [failIncrement, h]

/-- `failLock` preserves emails. -/
theorem failLock_email (e : String) (now : Time) (u : UserRow) :
    (failLock e now u).email = u.email := by
  unfold failLock
  cases hb : (decide (u.email = e) && (match u.failed_login_attempts with
      | some k => decide (5 ≤ k)
      | none => false)) <;> simp [hb]

/-- `failLock` fixes rows with other emails. -/
theorem failLock_skip (e : String) (now : Time) (u : UserRow) (h : u.email ≠ e) :
    failLock e now u = u := by
  simp [failLock, h]

/-- `successReset` preserves emails. -/
theorem successReset_email (e : String) (u : UserRow) :
    (successReset e u).email = u.email := by
  unfold successReset; by_cases h : u.email = e <;> simp [h]

/-- `successReset` fixes rows with other emails. -/
theorem successReset_skip (e : String) (u : UserRow) (h : u.email ≠ e) :
    successReset e u = u := by
  simp [successReset, h]

/-- Unrolling the second `forEach` of `getCategories`: folding
`categoryStep` appends to each map entry the ids of the remaining rows that
name it as parent (when the parent is a map key), and appends to the root
list the ids of the remaining parentless rows. -/
theorem foldl_categoryStep (keys : List String) (l : List CategoryRow)
    (m : List (String × List String)) (roots : List String) :
    l.foldl (categoryStep keys) (m, roots) =
      (m.map fun e => (e.1, e.2 ++
        ((l.filter fun c => c.parent_id == some e.1 && jsTruthy c.parent_id &&
          keys.contains e.1).map (·.id))),
       roots ++ ((l.filter fun c => !jsTruthy c.parent_id).map (·.id))) := by
  induction l generalizing m roots with
  | nil => simp
  | cons c l ih =>
    rw [List.foldl_cons]
    rcases hp : c.parent_id with _ | pid
    · have hstep : categoryStep keys (m, roots) c = (m, roots ++ [c.id]) := by
        simp [categoryStep, hp, jsTruthy]
      rw [hstep, ih, Prod.mk.injEq]
      constructor
      · apply List.map_congr_left
        intro e _
        simp [hp, jsTruthy]
      · simp [hp, jsTruthy]
    · by_cases hb : pid = ""
      · subst hb
        have hstep : categoryStep keys (m, roots) c = (m, roots ++ [c.id]) := by
          simp [categoryStep, hp, jsTruthy]
        rw [hstep, ih, Prod.mk.injEq]
        constructor
        · apply List.map_congr_left
          intro e _
          simp [hp, jsTruthy]
        · simp [hp, jsTruthy]
      · have hjt : jsTruthy c.parent_id = true := by simp [hp, jsTruthy, hb]
        by_cases hk : pid ∈ keys
        · have hstep : categoryStep keys (m, roots) c =
              (m.map fun e => if e.1 = pid then (e.1, e.2 ++ [c.id]) else e,
                roots) := by
            simp [categoryStep, hp, jsTruthy, hb, hk]
          rw [hstep, ih, List.map_map, Prod.mk.injEq]
          constructor
          · apply List.map_congr_left
            intro e _
            by_cases he : e.1 = pid
            · have hcc : (c.parent_id == some e.1 && jsTruthy c.parent_id &&
                  keys.contains e.1) = true := by
                simp [he, hp, jsTruthy, hb, hk]
              simp only [List.filter_cons, hcc, if_true, List.map_cons]
              simp [Function.comp, he, List.append_assoc]
            · have hne : ¬ (pid = e.1) := fun h => he h.symm
              have hcc : (c.parent_id == some e.1 && jsTruthy c.parent_id &&
                  keys.contains e.1) = false := by
                simp [hp, hne]
              simp only [List.filter_cons, hcc, Bool.false_eq_true, if_false]
              simp [Function.comp, he]
          · simp [List.filter_cons, hjt]
        · have hstep : categoryStep keys (m, roots) c = (m, roots) := by
            simp [categoryStep, hp, jsTruthy, hb, hk]
          rw [hstep, ih, Prod.mk.injEq]
          constructor
          · apply List.map_congr_left
            intro e _
            by_cases he : e.1 = pid
            · have hcc : (c.parent_id == some e.1 && jsTruthy c.parent_id &&
                  keys.contains e.1) = false := by
                simp [he, hp, hk]
              simp only [List.filter_cons, hcc, Bool.false_eq_true, if_false]
            · have hne : ¬ (pid = e.1) := fun h => he h.symm
              have hcc : (c.parent_id == some e.1 && jsTruthy c.parent_id &&
                  keys.contains e.1) = false := by
                simp [hp, hne]
              simp only [List.filter_cons, hcc, Bool.false_eq_true, if_false]
          · simp [List.filter_cons, hjt]

/-- The tree assembly in closed form: each fetched id is mapped to the ids
of the fetched rows naming it as parent, and the root list holds the ids of
the parentless rows. -/
theorem buildCategoryTree_eq (cats : List CategoryRow) :
    buildCategoryTree cats =
      (cats.map fun c => (c.id,
        (cats.filter fun d => d.parent_id == some c.id && jsTruthy d.parent_id &&
          (cats.map (·.id)).contains c.id).map (·.id)),
       (cats.filter fun c => !jsTruthy c.parent_id).map (·.id)) := by
  unfold buildCategoryTree
  rw [foldl_categoryStep, List.map_map]
  simp [Function.comp]

/-- Counting an id in a filtered projection of rows with distinct ids. -/
theorem count_filter_map_id (cats : List CategoryRow) (P : CategoryRow → Bool)
    (c : CategoryRow) (hc : c ∈ cats) (hids : (cats.map (·.id)).Nodup) :
    ((cats.filter P).map (·.id)).count c.id = if P c then 1 else 0 := by
  induction cats with
  | nil => cases hc
  | cons d l ih =>
    have hd : d.id ∉ l.map (·.id) := by
      rw [List.map_cons, List.nodup_cons] at hids
      exact hids.1
    have hids' : (l.map (·.id)).Nodup := by
      rw [List.map_cons, List.nodup_cons] at hids
      exact hids.2
    rcases List.mem_cons.mp hc with rfl | hcl
    · have hnot : c.id ∉ (l.filter P).map (·.id) := by
        intro hmem
        exact hd (List.map_subset _ (List.filter_sublist _).subset hmem)
      have hz : ((l.filter P).map (·.id)).count c.id = 0 :=
        List.count_eq_zero.mpr hnot
      by_cases hP : P c
      · rw [List.filter_cons_of_pos hP, List.map_cons,
          List.count_cons_self, hz, if_pos hP]
      · rw [List.filter_cons_of_neg (by simpa using hP), hz, if_neg hP]
    · have hne : c.id ≠ d.id := by
        intro he
        exact hd (he ▸ List.mem_map_of_mem _ hcl)
      by_cases hP : P d
      · rw [List.filter_cons_of_pos hP, List.map_cons,
          List.count_cons_of_ne hne, ih hcl hids']
      · rw [List.filter_cons_of_neg (by simpa using hP), ih hcl hids']

/-- Summing the indicator of `d.id = p` over rows counts `p` among the
ids. -/
theorem sum_ite_id_eq_count (cats : List CategoryRow) (p : String) :
    (cats.map fun d => if d.id = p then 1 else 0).sum =
      (cats.map (·.id)).count p := by
  induction cats with
  | nil => rfl
  | cons d l ih =>
    by_cases h : d.id = p
    · subst h
      rw [List.map_cons, List.sum_cons, if_pos rfl, List.map_cons,
        List.count_cons_self, ih]
      omega
    · rw [List.map_cons, List.sum_cons, if_neg h, List.map_cons,
        List.count_cons_of_ne (Ne.symm h), ih]
      omega

/-- **C8.** The standalone factorial function checked by the repository's
only unit test satisfies the four test expectations:
`factorial(0) = 1`, `factorial(1) = 1`, `factorial(5) = 120`,
`factorial(10) = 3628800`. -/
theorem factorial_test_values :
    factorial 0 = 1 ∧ factorial 1 = 1 ∧ factorial 5 = 120 ∧
      factorial 10 = 3628800 := by
  refine ⟨rfl, rfl, ?_, ?_⟩ <;> decide

/-- **C1.** For a call to `record_login_attempt` with `is_success = false`
on an existing user's email, the user's `failed_login_attempts` counter is
incremented by one, and once the counter has reached the fixed threshold of
5 the user's `locked_until` is set to `now + 30 minutes`; for a call with
`is_success = true`, `failed_login_attempts` and `locked_until` are reset to
0 and `NULL`. -/
theorem record_login_attempt_spec (db : DB) (now : Time) (e : String)
    (ip ua reason : Option String) (u : UserRow)
    (hu : db.users.find? (fun v => decide (v.email = e)) = some u) :
    (record_login_attempt db now e ip ua false reason).users.find?
        (fun v => decide (v.email = e)) =
      some { u with
        failed_login_attempts := some (u.failed_login_attempts.getD 0 + 1)
        locked_until :=
          if 5 ≤ u.failed_login_attempts.getD 0 + 1 then
            some (now + lockoutDuration)
          else u.locked_until } ∧
    (record_login_attempt db now e ip ua true reason).users.find?
        (fun v => decide (v.email = e)) =
      some { u with failed_login_attempts := some 0, locked_until := none } := by
  have hue : u.email = e := by
    have := List.find?_some hu
    simpa using this
  constructor
  · show ((db.users.map (failIncrement e)).map (failLock e now)).find?
        (fun v => decide (v.email = e)) = _
    rw [find?_map_email _ e (failLock e now) (failLock_email e now)
        (failLock_skip e now),
      find?_map_email _ e (failIncrement e) (failIncrement_email e)
        (failIncrement_skip e), hu, Option.map_some', Option.map_some']
    have hinc : failIncrement e u =
        { u with failed_login_attempts := some (u.failed_login_attempts.getD 0 + 1) } := by
      simp [failIncrement, hue]
    rw [hinc]
    by_cases h5 : 5 ≤ u.failed_login_attempts.getD 0 + 1
    · simp [failLock, hue, h5]
    · simp [failLock, hue, h5]
  · show (db.users.map (successReset e)).find?
        (fun v => decide (v.email = e)) = _
    rw [find?_map_email _ e (successReset e) (successReset_email e)
        (successReset_skip e), hu, Option.map_some']
    simp [successReset, hue]

/-- Witness for C1: a user with 4 prior failed attempts; the failed call
locks the account, the successful call resets it. -/
theorem record_login_attempt_spec_witness :
    (record_login_attempt ⟨[⟨"a@b.c", some 4, none⟩], [], [], [], [], [], []⟩
        0 "a@b.c" none none false none).users.find?
        (fun v => decide (v.email = "a@b.c")) =
      some ⟨"a@b.c", some 5, some (0 + lockoutDuration)⟩ ∧
    (record_login_attempt ⟨[⟨"a@b.c", some 4, none⟩], [], [], [], [], [], []⟩
        0 "a@b.c" none none true none).users.find?
        (fun v => decide (v.email = "a@b.c")) =
      some ⟨"a@b.c", some 0, none⟩ :=
  record_login_attempt_spec ⟨[⟨"a@b.c", some 4, none⟩], [], [], [], [], [], []⟩
    0 "a@b.c" none none none ⟨"a@b.c", some 4, none⟩ (by rfl)

/-- **C2.** `is_user_locked(user_email)` returns `true` exactly when the
user row exists with a non-`NULL` `locked_until` strictly in the future;
an expired lock yields `false` and is lazily cleared (`locked_until` to
`NULL`, `failed_login_attempts` to 0); a missing row yields `false` with no
change; a `NULL` lock yields `false` with no change. -/
theorem is_user_locked_spec (db : DB) (now : Time) (e : String) :
    ((is_user_locked db now e).fst = true ↔
      ∃ u t, db.users.find? (fun v => decide (v.email = e)) = some u ∧
        u.locked_until = some t ∧ now < t) ∧
    (db.users.find? (fun v => decide (v.email = e)) = none →
      is_user_locked db now e = (false, db)) ∧
    (∀ u t, db.users.find? (fun v => decide (v.email = e)) = some u →
      u.locked_until = some t → t ≤ now →
      is_user_locked db now e =
        (false, { db with users := db.users.map (lockClear e) })) ∧
    (∀ u, db.users.find? (fun v => decide (v.email = e)) = some u →
      u.locked_until = none → is_user_locked db now e = (false, db)) := by
  refine ⟨?_, ?_, ?_, ?_⟩
  · rcases hf : db.users.find? (fun v => decide (v.email = e)) with _ | u
    · simp [is_user_locked, hf]
    · rcases hl : u.locked_until with _ | t
      · simp [is_user_locked, hf, hl]
      · by_cases h : now < t
        · simp only [is_user_locked, hf, hl, if_pos h, true_iff]
          exact ⟨u, t, rfl, hl, h⟩
        · simp only [is_user_locked, hf, hl, if_neg h]
          constructor
          · intro hfalse; exact absurd hfalse (by simp)
          · rintro ⟨u', t', hu', hl', hlt⟩
            obtain rfl : u = u' := Option.some.inj hu'
            obtain rfl : t = t' := Option.some.inj (hl.symm.trans hl')
            exact absurd hlt h
  · intro hnone
    simp [is_user_locked, hnone]
  · intro u t hu hl hle
    have hnl : ¬ now < t := Int.not_lt.mpr hle
    simp only [is_user_locked, hu, hl]
    rw [if_neg hnl]
  · intro u hu hl
    simp [is_user_locked, hu, hl]

/-- Witness for C2: a user with an expired lock is reported unlocked and
the lock is lazily cleared. -/
theorem is_user_locked_spec_witness :
    is_user_locked ⟨[⟨"a@b.c", some 7, some 5⟩], [], [], [], [], [], []⟩
        10 "a@b.c" =
      (false, { (⟨[⟨"a@b.c", some 7, some 5⟩], [], [], [], [], [], []⟩ : DB) with
        users := [⟨"a@b.c", some 7, some 5⟩].map (lockClear "a@b.c") }) :=
  (is_user_locked_spec ⟨[⟨"a@b.c", some 7, some 5⟩], [], [], [], [], [], []⟩
      10 "a@b.c").2.2.1 ⟨"a@b.c", some 7, some 5⟩ 5 (by rfl) rfl (by decide)

/-- **C5 (amended).** For fetched rows with distinct non-degenerate ids,
the tree assembly of `getCategories` places every fetched category exactly
once — in the root list when its `parent_id` is null, in its parent's
children list when the parent is among the fetched rows — except that a
category whose `parent_id` refers to no fetched category is dropped from
the result entirely (it is attached nowhere). -/
theorem buildCategoryTree_spec (cats : List CategoryRow)
    (hids : (cats.map (·.id)).Nodup)
    (hss : ∀ c ∈ cats, c.parent_id ≠ some "") :
    ∀ c ∈ cats,
      treeOccurrences (buildCategoryTree cats) c.id =
        (match c.parent_id with
         | none => 1
         | some p => if p ∈ cats.map (·.id) then 1 else 0) ∧
      (c.parent_id = none → c.id ∈ (buildCategoryTree cats).2) ∧
      (∀ p, c.parent_id = some p → p ∈ cats.map (·.id) →
        ∃ e ∈ (buildCategoryTree cats).1, e.1 = p ∧ c.id ∈ e.2) := by
  intro c hc
  have hroots : (buildCategoryTree cats).2 =
      (cats.filter fun d => !jsTruthy d.parent_id).map (·.id) := by
    rw [buildCategoryTree_eq]
  have hmap : (buildCategoryTree cats).1 =
      cats.map fun c0 => (c0.id,
        (cats.filter fun d => d.parent_id == some c0.id && jsTruthy d.parent_id &&
          (cats.map (·.id)).contains c0.id).map (·.id)) := by
    rw [buildCategoryTree_eq]
  refine ⟨?_, ?_, ?_⟩
  · rw [treeOccurrences, hroots, hmap, List.map_map]
    have hcnt := count_filter_map_id cats (fun d => !jsTruthy d.parent_id) c hc hids
    rcases hcp : c.parent_id with _ | p
    · have hone : (!jsTruthy c.parent_id) = true := by simp [hcp, jsTruthy]
      have hz : (cats.map ((fun e : String × List String => e.2.count c.id) ∘
          fun c0 => (c0.id,
            (cats.filter fun d => d.parent_id == some c0.id && jsTruthy d.parent_id &&
              (cats.map (·.id)).contains c0.id).map (·.id)))).sum = 0 := by
        apply List.sum_eq_zero
        intro x hx
        obtain ⟨d, hd, rfl⟩ := List.mem_map.mp hx
        show ((cats.filter fun d0 => d0.parent_id == some d.id && jsTruthy d0.parent_id &&
          (cats.map (·.id)).contains d.id).map (·.id)).count c.id = 0
        rw [count_filter_map_id cats _ c hc hids, if_neg]
        simp [hcp]
      rw [hcnt, hz]
      simp [hone]
    · have hpne : p ≠ "" := by
        intro hpe
        exact hss c hc (by rw [hcp, hpe])
      have hjt : jsTruthy c.parent_id = true := by simp [hcp, jsTruthy, hpne]
      have hzero : (!jsTruthy c.parent_id) = false := by simp [hjt]
      have hsum : (cats.map ((fun e : String × List String => e.2.count c.id) ∘
          fun c0 => (c0.id,
            (cats.filter fun d => d.parent_id == some c0.id && jsTruthy d.parent_id &&
              (cats.map (·.id)).contains c0.id).map (·.id)))).sum =
          (cats.map (·.id)).count p := by
        rw [← sum_ite_id_eq_count cats p]
        congr 1
        apply List.map_congr_left
        intro d hd
        show ((cats.filter fun d0 => d0.parent_id == some d.id && jsTruthy d0.parent_id &&
          (cats.map (·.id)).contains d.id).map (·.id)).count c.id =
            if d.id = p then 1 else 0
        rw [count_filter_map_id cats _ c hc hids]
        by_cases hdp : d.id = p
        · rw [if_pos, if_pos hdp]
          have hdm : d.id ∈ cats.map (·.id) := List.mem_map_of_mem _ hd
          simp only [hcp, hdp, jsTruthy]
          simp [hpne]
          exact ⟨d, hd, hdp⟩
        · rw [if_neg, if_neg hdp]
          have hne : ¬ (p = d.id) := fun h => hdp h.symm
          simp [hcp, hne]
      rw [hcnt, hsum]
      simp only [hzero, Bool.false_eq_true, if_false, Nat.zero_add]
      by_cases hpm : p ∈ cats.map (·.id)
      · rw [if_pos hpm, List.count_eq_one_of_mem hids hpm]
      · rw [if_neg hpm, List.count_eq_zero_of_not_mem hpm]
  · intro hcp
    rw [hroots]
    have hcf : c ∈ cats.filter fun d => !jsTruthy d.parent_id := by
      rw [List.mem_filter]
      exact ⟨hc, by simp [hcp, jsTruthy]⟩
    exact List.mem_map_of_mem _ hcf
  · intro p hcp hpm
    have hpne : p ≠ "" := by
      intro hpe
      exact hss c hc (by rw [hcp, hpe])
    have hjt : jsTruthy c.parent_id = true := by simp [hcp, jsTruthy, hpne]
    obtain ⟨d, hd, hdp⟩ := List.mem_map.mp hpm
    refine ⟨(d.id,
      (cats.filter fun d0 => d0.parent_id == some d.id && jsTruthy d0.parent_id &&
        (cats.map (·.id)).contains d.id).map (·.id)), ?_, hdp, ?_⟩
    · rw [hmap]
      exact List.mem_map_of_mem _ hd
    · have hdm : d.id ∈ cats.map (·.id) := List.mem_map_of_mem _ hd
      have hcf : c ∈ cats.filter fun d0 =>
          d0.parent_id == some d.id && jsTruthy d0.parent_id &&
            (cats.map (·.id)).contains d.id := by
        rw [List.mem_filter]
        refine ⟨hc, ?_⟩
        simp only [hcp, hdp, jsTruthy]
        simp [hpne]
        exact ⟨d, hd, hdp⟩
      exact List.mem_map_of_mem _ hcf

/-- **C5, counterexample to the claim as stated.**  A fetched category whose
`parent_id` names an id that was not fetched is placed nowhere — neither in
the root list nor in any children list — so it does not "appear exactly
once in the result". -/
theorem buildCategoryTree_dropped_counterexample :
    treeOccurrences (buildCategoryTree [⟨"a", some "zzz", "A"⟩]) "a" = 0 := by
  decide

/-- Witness for C5: a root and a child; the child is placed once, in the
root's children list. -/
theorem buildCategoryTree_spec_witness :
    ∃ e ∈ (buildCategoryTree
        [⟨"r", none, "Root"⟩, ⟨"c", some "r", "Child"⟩]).1,
      e.1 = "r" ∧ "c" ∈ e.2 :=
  ((buildCategoryTree_spec [⟨"r", none, "Root"⟩, ⟨"c", some "r", "Child"⟩]
      (by decide) (by decide)) ⟨"c", some "r", "Child"⟩
      (by decide)).2.2 "r" rfl (by decide)

/-- **C3 (amended).** `validateCSRFToken(token, userId?)` returns `true`
exactly when a `csrf_tokens` row with that token exists whose `expires_at`
is strictly later than `now` and — when a *non-empty* `userId` is supplied —
whose `user_id` equals `userId` (JS truthiness skips the ownership check
when `userId` is the empty string); whenever it returns `true` the token's
row is deleted, so an immediately repeated call with the same token returns
`false`; on any failure path nothing is deleted.  The `token` column is
`UNIQUE`, stated as the hypothesis that at most one stored row carries the
token. -/
theorem validateCSRFToken_spec (db : DB) (now : Time) (token : String)
    (userId : Option String)
    (huniq : (db.csrf_tokens.filter fun r => decide (r.token = token)).length ≤ 1) :
    ((validateCSRFToken db now token userId).fst = true ↔
      ∃ r, r ∈ db.csrf_tokens ∧ r.token = token ∧ now < r.expires_at ∧
        ∀ s, userId = some s → s ≠ "" → r.user_id = some s) ∧
    ((validateCSRFToken db now token userId).fst = true →
      (validateCSRFToken db now token userId).snd =
        { db with csrf_tokens :=
            db.csrf_tokens.filter fun s => !decide (s.token = token) } ∧
      ∀ now2 userId2,
        (validateCSRFToken (validateCSRFToken db now token userId).snd
            now2 token userId2).fst = false) ∧
    ((validateCSRFToken db now token userId).fst = false →
      (validateCSRFToken db now token userId).snd = db) := by
  have hperm : db.csrf_tokens.filter
      (fun r => decide (r.token = token) && decide (now < r.expires_at)) =
      (db.csrf_tokens.filter fun r => decide (r.token = token)).filter
        (fun r => decide (now < r.expires_at)) := by
    rw [List.filter_filter]
    exact List.filter_congr fun a _ => Bool.and_comm _ _
  have hsub : (db.csrf_tokens.filter
      (fun r => decide (r.token = token) && decide (now < r.expires_at))).length ≤ 1 :=
    le_trans (by rw [hperm]; exact List.length_filter_le _ _) huniq
  rcases hfil : db.csrf_tokens.filter
      (fun r => decide (r.token = token) && decide (now < r.expires_at))
    with _ | ⟨r, _ | ⟨r2, rest2⟩⟩
  · -- no live row with this token
    have hres : validateCSRFToken db now token userId = (false, db) := by
      simp only [validateCSRFToken, hfil]
    refine ⟨?_, ?_, ?_⟩
    · rw [hres]
      constructor
      · intro h; exact absurd h (by simp)
      · rintro ⟨r, hr, ht, he, _⟩
        have hmem : r ∈ db.csrf_tokens.filter
            (fun r => decide (r.token = token) && decide (now < r.expires_at)) :=
          List.mem_filter.mpr ⟨hr, by simp [ht, he]⟩
        rw [hfil] at hmem
        cases hmem
    · rw [hres]; intro h; exact absurd h (by simp)
    · intro _; rw [hres]
  · -- exactly one live row r
    have h0 : r ∈ db.csrf_tokens.filter
        (fun r => decide (r.token = token) && decide (now < r.expires_at)) := by
      rw [hfil]; exact List.mem_singleton_self r
    obtain ⟨hrl, hP⟩ := List.mem_filter.mp h0
    obtain ⟨hrtok, hrexp⟩ : r.token = token ∧ now < r.expires_at := by
      simpa using hP
    cases hcond : jsTruthy userId && !decide (r.user_id = userId) with
    | true =>
      have hres : validateCSRFToken db now token userId = (false, db) := by
        simp [validateCSRFToken, hfil, hcond]
      obtain ⟨hjt, hneq⟩ : jsTruthy userId = true ∧
          (!decide (r.user_id = userId)) = true := by simpa using hcond
      have hneq' : r.user_id ≠ userId := by simpa using hneq
      refine ⟨?_, ?_, ?_⟩
      · rw [hres]
        constructor
        · intro h; exact absurd h (by simp)
        · rintro ⟨r', hr', ht', he', hown⟩
          have hmem : r' ∈ db.csrf_tokens.filter
              (fun r => decide (r.token = token) && decide (now < r.expires_at)) :=
            List.mem_filter.mpr ⟨hr', by simp [ht', he']⟩
          rw [hfil] at hmem
          obtain rfl : r' = r := List.mem_singleton.mp hmem
          obtain ⟨s, hus, hsne⟩ := (jsTruthy_iff userId).mp hjt
          exfalso
          apply hneq'
          rw [hus]
          exact hown s hus hsne
      · rw [hres]; intro h; exact absurd h (by simp)
      · intro _; rw [hres]
    | false =>
      have hres : validateCSRFToken db now token userId =
          (true, { db with csrf_tokens :=
            db.csrf_tokens.filter fun s => !decide (s.token = token) }) := by
        simp [validateCSRFToken, hfil, hcond]
      have hown : ∀ s, userId = some s → s ≠ "" → r.user_id = some s := by
        intro s hs hsne
        have hjt : jsTruthy userId = true := (jsTruthy_iff userId).mpr ⟨s, hs, hsne⟩
        have h2 : r.user_id = userId := by
          by_contra hne
          have hT : (jsTruthy userId && !decide (r.user_id = userId)) = true := by
            simp [hjt, hne]
          rw [hcond] at hT
          simp at hT
        rw [h2, hs]
      refine ⟨?_, ?_, ?_⟩
      · rw [hres]
        simp only [true_iff]
        exact ⟨r, hrl, hrtok, hrexp, hown⟩
      · intro _
        constructor
        · rw [hres]
        · intro now2 userId2
          rw [hres]
          have hfil2 : ((db.csrf_tokens.filter
              fun s => !decide (s.token = token)).filter
                (fun r => decide (r.token = token) && decide (now2 < r.expires_at))) = [] := by
            rw [List.filter_eq_nil_iff]
            intro a ha
            have hnt : (!decide (a.token = token)) = true :=
              (List.mem_filter.mp ha).2
            simp only [Bool.not_eq_true', decide_eq_false_iff_not] at hnt
            simp [hnt]
          simp only [validateCSRFToken, hfil2]
      · rw [hres]; intro h; exact absurd h (by simp)
  · -- impossible: two live rows with the same unique token
    rw [hfil] at hsub
    simp at hsub

/-- **C3, counterexample to the claim as stated.**  With the empty string
supplied as `userId`, JS truthiness skips the ownership check: the call
returns `true` although the stored row's `user_id` (`"alice"`) differs from
the supplied `userId` (`""`). -/
theorem validateCSRFToken_empty_userId_counterexample :
    (validateCSRFToken ⟨[], [], [], [], [⟨"tok", some "alice", 10⟩], [], []⟩
        0 "tok" (some "")).fst = true ∧
      (some "alice" : Option String) ≠ some "" := by
  constructor
  · rfl
  · simp

/-- Witness for C3: a single live token row validated with no `userId`. -/
theorem validateCSRFToken_spec_witness :
    (validateCSRFToken ⟨[], [], [], [], [⟨"tok", some "alice", 10⟩], [], []⟩
        0 "tok" none).fst = true :=
  (validateCSRFToken_spec ⟨[], [], [], [], [⟨"tok", some "alice", 10⟩], [], []⟩
      0 "tok" none (by decide)).1.mpr
    ⟨⟨"tok", some "alice", 10⟩, by simp, rfl, by decide, fun s hs => nomatch hs⟩

/-- **C7.** `cleanup_expired_tokens` deletes exactly the
`password_reset_tokens`, `user_sessions` and `csrf_tokens` rows whose
`expires_at` is earlier than `now` and the `login_attempts` rows older than
30 days, and leaves every other row of those four tables, and all other
tables, unchanged. -/
theorem cleanup_expired_tokens_spec (db : DB) (now : Time) :
    (∀ r : TokenRow, r ∈ (cleanup_expired_tokens db now).password_reset_tokens ↔
      r ∈ db.password_reset_tokens ∧ ¬ r.expires_at < now) ∧
    (∀ r : TokenRow, r ∈ (cleanup_expired_tokens db now).user_sessions ↔
      r ∈ db.user_sessions ∧ ¬ r.expires_at < now) ∧
    (∀ r : CsrfRow, r ∈ (cleanup_expired_tokens db now).csrf_tokens ↔
      r ∈ db.csrf_tokens ∧ ¬ r.expires_at < now) ∧
    (∀ r : LoginAttemptRow, r ∈ (cleanup_expired_tokens db now).login_attempts ↔
      r ∈ db.login_attempts ∧ ¬ r.created_at < now - thirtyDays) ∧
    (cleanup_expired_tokens db now).users = db.users ∧
    (cleanup_expired_tokens db now).shopping_carts = db.shopping_carts ∧
    (cleanup_expired_tokens db now).ratings = db.ratings := by
  refine ⟨?_, ?_, ?_, ?_, rfl, rfl, rfl⟩ <;>
    intro r <;> simp [cleanup_expired_tokens, List.mem_filter]

/-- **C10 (amended).** After every error-free cart store operation
(`loadCart`, `updateItem`, `removeItem`, `clearCart`), `totalItems` is the
sum of the item quantities and `totalPrice` is the sum over items of
quantity times the JS falsy-coalescing price
`variant?.price || product?.base_price || 0` (the variant's price when a
variant with nonzero price is joined, else the product's base price, else
0). -/
theorem cartStore_totals_spec (st : CartStoreState) (fetched : List CartItem)
    (id : String) (q : ℚ) :
    cartTotalsOk (loadCart st fetched) ∧ cartTotalsOk (updateItem st id q) ∧
      cartTotalsOk (removeItem st id) ∧ cartTotalsOk (clearCart st) :=
  ⟨calculateTotals_ok _, calculateTotals_ok _, calculateTotals_ok _,
    by constructor <;> simp [clearCart, cartTotalsOk]⟩

/-- **C10, counterexample to the claim as stated.**  For a cart line whose
joined variant has price `0` while the product's base price is `10`, the
store computes `totalPrice = 10` (JS `||` skips the falsy `0`), while the
claim's rule "variant price when a variant is present" demands
`0 * 1 = 0`. -/
theorem cart_variant_zero_price_counterexample :
    (loadCart ⟨[], 0, 0⟩ [⟨"i", 1, some ⟨0⟩, some ⟨10⟩⟩]).totalPrice = 10 ∧
      (10 : ℚ) ≠ 0 * 1 := by
  constructor
  · norm_num [loadCart, calculateTotals, jsItemPrice]
  · norm_num

/-- **C6 (amended).** The `shopping_carts` constraint
`UNIQUE(user_id, product_id, variant_id)` rejects an insert exactly when an
existing row matches it on all three columns with every compared value
non-`NULL`, and likewise `ratings` under `UNIQUE(product_id, user_id)`; a
duplicate cart line whose `variant_id` is `NULL` is accepted, because SQL
unique constraints treat `NULL` as distinct from `NULL`. -/
theorem schema_uniqueness_spec :
    (∀ (rows : List CartRow) (r : CartRow),
      cartInsertAllowed rows r = false ↔
        ∃ s ∈ rows, ∃ u p v,
          r.user_id = some u ∧ s.user_id = some u ∧
          r.product_id = some p ∧ s.product_id = some p ∧
          r.variant_id = some v ∧ s.variant_id = some v) ∧
    (∀ (rows : List RatingRow) (r : RatingRow),
      ratingInsertAllowed rows r = false ↔
        ∃ s ∈ rows, ∃ p u,
          r.product_id = some p ∧ s.product_id = some p ∧
          r.user_id = some u ∧ s.user_id = some u) := by
  constructor
  · intro rows r
    simp only [cartInsertAllowed, Bool.not_eq_false', List.any_eq_true,
      cartConflict, Bool.and_eq_true, sqlUniqueEq_true_iff]
    tauto
  · intro rows r
    simp only [ratingInsertAllowed, Bool.not_eq_false', List.any_eq_true,
      ratingConflict, Bool.and_eq_true, sqlUniqueEq_true_iff]
    tauto

/-- **C6, counterexample to the claim as stated.**  Inserting a second cart
line with the same `user_id` and `product_id` and a `NULL` `variant_id` is
accepted by `UNIQUE(user_id, product_id, variant_id)`, contrary to the
claim that every duplicate, "including the case where variant_id is null",
is rejected. -/
theorem cart_null_variant_duplicate_counterexample :
    cartInsertAllowed [⟨some "u", some "p", none, 1⟩]
      ⟨some "u", some "p", none, 1⟩ = true := by decide

/-- With a draw `r ∈ [0,1)`, the 1-based index `⌊r * 62 + 1⌋` always lands
inside the alphabet, so the appended substring is a single character of the
alphabet. -/
theorem sqlSubstr1_floor_spec (r : ℚ) (h0 : 0 ≤ r) (h1 : r < 1) :
    (sqlSubstr1 tokenChars ⌊r * (tokenChars.length : ℚ) + 1⌋).length = 1 ∧
      ∀ c ∈ sqlSubstr1 tokenChars ⌊r * (tokenChars.length : ℚ) + 1⌋,
        c ∈ tokenChars := by
  have hlen : tokenChars.length = 62 := by decide
  have hcast : (tokenChars.length : ℚ) = 62 := by rw [hlen]; norm_num
  rw [hcast]
  have hx0 : (1 : ℚ) ≤ r * 62 + 1 := by nlinarith
  have hx1 : r * 62 + 1 < 63 := by nlinarith
  have hf0 : (1 : ℤ) ≤ ⌊r * 62 + 1⌋ := by
    rw [Int.le_floor]; exact_mod_cast hx0
  have hf1 : ⌊r * 62 + 1⌋ < 63 := by
    rw [Int.floor_lt]; exact_mod_cast hx1
  have hk : (⌊r * 62 + 1⌋ - 1).toNat ≤ 61 := by omega
  constructor
  · rw [sqlSubstr1, List.length_take, List.length_drop, hlen]
    omega
  · intro c hc
    exact List.drop_subset _ _ (List.take_subset _ _ hc)

/-- **C4.** For every `n`, `generate_secure_token(n)` returns a string of
exactly `n` characters, each drawn from the 62-character alphanumeric
alphabet `A-Z a-z 0-9`, for any randomness oracle with values in `[0,1)`. -/
theorem generate_secure_token_spec (oracle : Nat → ℚ) (n : Nat)
    (h : ∀ i, 0 ≤ oracle i ∧ oracle i < 1) :
    (generate_secure_token oracle n).length = n ∧
      ∀ c ∈ generate_secure_token oracle n, c ∈ tokenChars := by
  induction n with
  | zero =>
    refine ⟨rfl, ?_⟩
    intro c hc
    simp [generate_secure_token] at hc
  | succ n ih =>
    obtain ⟨hl, hm⟩ := ih
    obtain ⟨hs1, hs2⟩ :=
      sqlSubstr1_floor_spec (oracle (n + 1)) (h (n + 1)).1 (h (n + 1)).2
    constructor
    · rw [generate_secure_token, List.length_append, hl, hs1]
    · intro c hc
      rw [generate_secure_token] at hc
      rcases List.mem_append.mp hc with h1 | h2
      · exact hm c h1
      · exact hs2 c h2

/-- Witness for C4: the fixed oracle `1/2` and `n = 3`. -/
theorem generate_secure_token_spec_witness :
    (generate_secure_token (fun _ => (1 : ℚ) / 2) 3).length = 3 ∧
      ∀ c ∈ generate_secure_token (fun _ => (1 : ℚ) / 2) 3, c ∈ tokenChars :=
  generate_secure_token_spec (fun _ => (1 : ℚ) / 2) 3
    (fun _ => ⟨by norm_num, by norm_num⟩)

/-- Every codepoint contributes at least one UTF-16 code unit, so the JS
string length dominates the character count. -/
theorem length_le_utf16Length (p : List Char) : p.length ≤ utf16Length p := by
  induction p with
  | nil => exact Nat.le_refl 0
  | cons c t ih =>
    have h : utf16Length (c :: t) =
        (if c.toNat < 65536 then 1 else 2) + utf16Length t := by
      rw [utf16Length, utf16Length, List.map_cons, List.sum_cons]
    rw [h, List.length_cons]
    by_cases hc : c.toNat < 65536 <;> simp [hc] <;> omega

/-- On a password whose codepoints all lie in the Basic Multilingual Plane,
the JS string length equals the character count. -/
theorem utf16Length_eq_length (p : List Char) (h : ∀ c ∈ p, c.toNat < 65536) :
    utf16Length p = p.length := by
  induction p with
  | nil => rfl
  | cons c t ih =>
    have hh : utf16Length (c :: t) =
        (if c.toNat < 65536 then 1 else 2) + utf16Length t := by
      rw [utf16Length, utf16Length, List.map_cons, List.sum_cons]
    rw [hh, if_pos (h c (List.mem_cons_self c t)),
      ih (fun d hd => h d (List.mem_cons_of_mem c hd)), List.length_cons]
    omega

/-- The early-return chain of `check_password_strength`, flattened. -/
theorem check_password_strength_iff (p : List Char) :
    check_password_strength p = true ↔
      8 ≤ p.length ∧ p.any isUpperAZ = true ∧ p.any isLowerAZ = true ∧
        p.any isDigit09 = true ∧
        p.any (fun c => !(isUpperAZ c || isLowerAZ c || isDigit09 c)) = true := by
  unfold check_password_strength
  split_ifs with h1 h2 h3 h4 h5
  · simp only [false_iff]
    rintro ⟨h8, _⟩
    omega
  · simp only [false_iff]
    rintro ⟨_, hA, _⟩
    simp [hA] at h2
  · simp only [false_iff]
    rintro ⟨_, _, hB, _⟩
    simp [hB] at h3
  · simp only [false_iff]
    rintro ⟨_, _, _, hC, _⟩
    simp [hC] at h4
  · simp only [false_iff]
    rintro ⟨_, _, _, _, hD⟩
    rw [hD] at h5
    simp at h5
  · simp only [true_iff]
    have h2' : p.any isUpperAZ = true := by simpa using h2
    have h3' : p.any isLowerAZ = true := by simpa using h3
    have h4' : p.any isDigit09 = true := by simpa using h4
    have h5x : ∃ x ∈ p, isUpperAZ x = false ∧ isLowerAZ x = false ∧
        isDigit09 x = false := by simpa using h5
    have h5' : (p.any fun c => !(isUpperAZ c || isLowerAZ c || isDigit09 c)) =
        true := by
      obtain ⟨x, hx, hu, hl, hd⟩ := h5x
      rw [List.any_eq_true]
      exact ⟨x, hx, by simp [hu, hl, hd]⟩
    exact ⟨by omega, h2', h3', h4', h5'⟩

/-- The conjunction chain of the zod rule, flattened. -/
theorem zodPasswordRule_iff (p : List Char) :
    zodPasswordRule p = true ↔
      8 ≤ utf16Length p ∧ p.any isUpperAZ = true ∧ p.any isLowerAZ = true ∧
        p.any isDigit09 = true ∧
        p.any (fun c => !(isUpperAZ c || isLowerAZ c || isDigit09 c)) = true := by
  unfold zodPasswordRule
  simp [and_assoc]

/-- **C9 (amended).** The zod password rule and `check_password_strength`
share the four character-class requirements but measure length differently:
zod's `.min(8)` counts UTF-16 code units (JS `String.length`) while the SQL
`length()` counts characters.  Hence every password `check_password_strength`
accepts is accepted by the zod rule, and the two agree on every password
whose characters all lie in the Basic Multilingual Plane (one code unit
each); a password with enough astral characters is accepted by zod alone. -/
theorem zodPasswordRule_vs_check_password_strength :
    (∀ p : List Char, check_password_strength p = true →
      zodPasswordRule p = true) ∧
    (∀ p : List Char, (∀ c ∈ p, c.toNat < 65536) →
      zodPasswordRule p = check_password_strength p) := by
  constructor
  · intro p hp
    obtain ⟨h8, h1, h2, h3, h4⟩ := (check_password_strength_iff p).mp hp
    exact (zodPasswordRule_iff p).mpr
      ⟨le_trans h8 (length_le_utf16Length p), h1, h2, h3, h4⟩
  · intro p hbmp
    rw [Bool.eq_iff_iff, zodPasswordRule_iff, check_password_strength_iff,
      utf16Length_eq_length p hbmp]

/-- **C9, counterexample to the claim as stated.**  `"Aa1!🙂🙂"` has six
characters but JS length 8 (each emoji is a surrogate pair): the zod rule
accepts it while `check_password_strength` rejects it at the
`length(password) < 8` check, so the two do not accept the same set. -/
theorem zod_password_utf16_counterexample :
    zodPasswordRule ['A', 'a', '1', '!', '🙂', '🙂'] = true ∧
      check_password_strength ['A', 'a', '1', '!', '🙂', '🙂'] = false := by
  constructor <;> decide

/-- Witness for C9: on an all-ASCII password the two rules agree. -/
theorem zodPasswordRule_vs_check_password_strength_witness :
    zodPasswordRule ['A', 'a', '1', '!', 'x', 'y', 'z', 'w'] =
      check_password_strength ['A', 'a', '1', '!', 'x', 'y', 'z', 'w'] :=
  zodPasswordRule_vs_check_password_strength.2
    ['A', 'a', '1', '!', 'x', 'y', 'z', 'w'] (by decide)

end BoltSupabase
